import Mathlib

/-!
Verification of the filter-and-aggregate core of the company-sales dashboard
(`src/app.py`).

The embedding models:
* the type-normalization step (lines 39-41 of `app.py`): `astype('category')`
  on `ShelveLoc` and `.map({'Yes': True, 'No': False})` on `Urban` / `US`;
* the filter pipeline (lines 81-91): two numeric range masks, a categorical
  `isin` mask, and two conditional boolean-equality masks;
* the aggregations: `groupby(col)['Sales'].mean()` (lines 203, 215),
  `pd.qcut(filtered_df['Price'], q=4)` followed by a grouped mean and interval
  midpoints (lines 184-186) — including pandas' label formatting, which
  rounds the breaks (`_round_frac` at the `_infer_precision`-inferred
  precision) and lowers the first break by `10^(-precision)` — and the
  Pearson correlation matrix over the numeric columns (lines 227-228).

Numeric cell values are modelled as exact rationals (`ℚ`); a pandas `NaN`
value (which arises from `.map` on an unmapped value, or from an aggregate of
an empty group) is modelled with `Option`/an explicit `na` constructor.
-/

namespace CompanyDashboard

/-- A value held by one of the `Urban` / `US` cells.  Before normalization the
CSV stores text; `.map({'Yes': True, 'No': False})` turns it into a boolean,
and any value missing from the mapping dictionary becomes `NaN`, modelled by
`na`. -/
inductive CellVal where
  | str (s : String)
  | bool (b : Bool)
  | na
  deriving DecidableEq, Repr

/-- One row of the dataset, restricted to the columns the core reads.
Numeric columns are modelled as exact rationals. -/
structure Record where
  Sales : ℚ
  Price : ℚ
  Advertising : ℚ
  Income : ℚ
  Population : ℚ
  Age : ℚ
  Education : ℚ
  ShelveLoc : String
  Urban : CellVal
  US : CellVal
  deriving DecidableEq, Repr

/-- A dataset is an ordered sequence of records (one pandas `DataFrame`). -/
abbrev Dataset := List Record

/-- `.map({'Yes': True, 'No': False})` applied to one cell: an exact-match
dictionary lookup; any value that is not the string `"Yes"` or `"No"`
(including an already-converted boolean, or `NaN`) is absent from the
dictionary and becomes `NaN`. -/
def mapYesNo : CellVal → CellVal
  | .str "Yes" => .bool true
  | .str "No" => .bool false
  | _ => .na

/-- Line 39, `df['ShelveLoc'] = df['ShelveLoc'].astype('category')`: the
column's dtype changes but every cell value is unchanged. -/
def astypeCategory (d : Dataset) : Dataset :=
  d.map fun r => { r with ShelveLoc := r.ShelveLoc }

/-- Line 40, `df['Urban'] = df['Urban'].map({'Yes': True, 'No': False})`. -/
def mapUrban (d : Dataset) : Dataset :=
  d.map fun r => { r with Urban := mapYesNo r.Urban }

/-- Line 41, `df['US'] = df['US'].map({'Yes': True, 'No': False})`. -/
def mapUS (d : Dataset) : Dataset :=
  d.map fun r => { r with US := mapYesNo r.US }

/-- The whole preprocessing block, lines 39-41, as the function it applies to
the table. -/
def preprocess (d : Dataset) : Dataset :=
  mapUS (mapUrban (astypeCategory d))

/-- The mutable program state around the preprocessing block: the single
dataframe object that the name `df` is bound to.  Lines 39-41 assign the
converted columns back into that same object. -/
structure PyState where
  df : Dataset
  deriving DecidableEq, Repr

/-- Running lines 39-41: each `df[col] = ...` statement replaces a column of
the table bound to `df`; afterwards `df` holds the converted table and the
original text-valued table is no longer reachable. -/
def runPreprocessing (st : PyState) : PyState :=
  { st with df := preprocess st.df }

/-- The three-valued state of the `Urban` / `US` radio widgets
(`'All' | 'Yes' | 'No'`). -/
inductive TriState where
  | all
  | yes
  | no
  deriving DecidableEq, Repr

/-- One filtering request: the values read from the sidebar widgets
(lines 47-78). -/
structure FilterSpec where
  min_sales : ℚ
  max_sales : ℚ
  min_price : ℚ
  max_price : ℚ
  shelve_locs : List String
  urban_filter : TriState
  us_filter : TriState
  deriving DecidableEq, Repr

/-- Python `==` between an `Urban`/`US` cell and a boolean: `NaN` (and any
leftover string) compares unequal to both `True` and `False`. -/
def cellEqBool : CellVal → Bool → Bool
  | .bool b, c => b == c
  | _, _ => false

/-- The boolean mask of line 81-85: `(df['Sales'] >= min_sales) &
(df['Sales'] <= max_sales) & (df['Price'] >= min_price) &
(df['Price'] <= max_price) & (df['ShelveLoc'].isin(shelve_locs))`. -/
def baseMask (s : FilterSpec) (r : Record) : Bool :=
  decide (s.min_sales ≤ r.Sales) && decide (r.Sales ≤ s.max_sales) &&
  decide (s.min_price ≤ r.Price) && decide (r.Price ≤ s.max_price) &&
  s.shelve_locs.contains r.ShelveLoc

/-- Lines 81-91: the base mask, then
`if urban_filter != 'All': filtered_df = filtered_df[filtered_df['Urban'] == (urban_filter == 'Yes')]`,
then the analogous `us_filter` step. -/
def filtered_df (d : Dataset) (s : FilterSpec) : Dataset :=
  let f0 := d.filter (baseMask s)
  let f1 := if s.urban_filter ≠ TriState.all then
      f0.filter (fun r => cellEqBool r.Urban (s.urban_filter == TriState.yes))
    else f0
  if s.us_filter ≠ TriState.all then
    f1.filter (fun r => cellEqBool r.US (s.us_filter == TriState.yes))
  else f1

/-- The conditional `Urban` mask as a single predicate (true when the widget
is `'All'`). -/
def urbanMask (s : FilterSpec) (r : Record) : Bool :=
  if s.urban_filter = TriState.all then true
  else cellEqBool r.Urban (s.urban_filter == TriState.yes)

/-- The conditional `US` mask as a single predicate (true when the widget is
`'All'`). -/
def usMask (s : FilterSpec) (r : Record) : Bool :=
  if s.us_filter = TriState.all then true
  else cellEqBool r.US (s.us_filter == TriState.yes)

/-! ### Aggregation functions -/

/-- Arithmetic mean of a list of rationals (used only on non-empty lists; on
`[]` the quotient is `0/0 = 0`, but every caller guards emptiness). -/
def listMean (xs : List ℚ) : ℚ :=
  xs.sum / xs.length

/-- `Series.mean()` with pandas `NaN` semantics: the mean of an empty column
is `NaN`, modelled as `none`. -/
def meanSalesOpt (view : Dataset) : Option ℚ :=
  if view = [] then none else some (listMean (view.map (·.Sales)))

/-- Insert into a list sorted by the boolean comparator `le`. -/
def insertLe (le : κ → κ → Bool) (a : κ) : List κ → List κ
  | [] => [a]
  | b :: l => if le a b then a :: b :: l else b :: insertLe le a l

/-- Insertion sort by the boolean comparator `le` (models pandas' sorting of
group keys, `groupby(..., sort=True)`). -/
def sortLe (le : κ → κ → Bool) : List κ → List κ
  | [] => []
  | a :: l => insertLe le a (sortLe le l)

/-- `filtered_df.groupby(col)['Sales'].mean()` for a non-categorical group
column: one row per distinct observed key, keys sorted ascending, value the
mean of `Sales` over the key's records.  Groups with no records do not
appear. -/
def meanByGroup [DecidableEq κ] (view : Dataset) (col : Record → κ)
    (le : κ → κ → Bool) : List (κ × ℚ) :=
  (sortLe le (view.map col).dedup).map fun k =>
    (k, listMean ((view.filter fun r => decide (col r = k)).map (·.Sales)))

/-- Strict lexicographic comparison of character lists by code point (the
ordering Python/pandas use on strings). -/
def strLtList : List Char → List Char → Bool
  | [], [] => false
  | [], _ :: _ => true
  | _ :: _, [] => false
  | a :: as, b :: bs =>
      if a.toNat < b.toNat then true
      else if b.toNat < a.toNat then false
      else strLtList as bs

/-- Lexicographic `≤` on strings. -/
def strLe (a b : String) : Bool :=
  decide (a = b) || strLtList a.data b.data

/-- An ordering of cell values: `NaN` first, then booleans (`False < True`),
then strings lexicographically.  Only the boolean case is exercised by the
dashboard (group keys of `Urban`/`US` after normalization). -/
def cellLe : CellVal → CellVal → Bool
  | .na, _ => true
  | _, .na => false
  | .bool a, .bool b => !a || b
  | .bool _, .str _ => true
  | .str _, .bool _ => false
  | .str a, .str b => strLe a b

/-- Line 203: `filtered_df.groupby('Urban')['Sales'].mean().reset_index()`.
`groupby` drops rows whose key is `NaN` (`dropna=True` default). -/
def urban_sales (view : Dataset) : List (CellVal × ℚ) :=
  meanByGroup (view.filter fun r => !decide (r.Urban = CellVal.na)) (·.Urban) cellLe

/-- Line 215: `filtered_df.groupby('US')['Sales'].mean().reset_index()`. -/
def us_sales (view : Dataset) : List (CellVal × ℚ) :=
  meanByGroup (view.filter fun r => !decide (r.US = CellVal.na)) (·.US) cellLe

/-- Modelled from the spec: `meanByGroup(view, ShelveLoc)` — the spec's §4.4
grouped mean instantiated at the categorical column.  The code instantiates
the `groupby(col)['Sales'].mean()` pattern only at the boolean columns
(lines 203, 215); per §4.4, groups with zero matching records are absent. -/
def shelveloc_sales (view : Dataset) : List (String × ℚ) :=
  meanByGroup view (·.ShelveLoc) strLe

/-! ### Quantile binning (`pd.qcut`, lines 184-186) -/

/-- The five probabilities `np.linspace(0, 1, 5)` used by `pd.qcut(..., q=4)`. -/
def qcutProbs : List ℚ :=
  [0, 1/4, 1/2, 3/4, 1]

/-- `Series.quantile(p)` with the default linear interpolation: with the
values sorted ascending and `h = p * (n - 1)`, the quantile is
`x⌊h⌋ + (h - ⌊h⌋) * (x⌊h⌋₊₁ - x⌊h⌋)`.  Callers pass a sorted non-empty
list and `0 ≤ p ≤ 1`. -/
def quantileAt (xs : List ℚ) (p : ℚ) : ℚ :=
  let h : ℚ := p * ((xs.length : ℚ) - 1)
  let i : ℕ := ⌊h⌋.toNat
  let lo := xs.getD i 0
  let hi := xs.getD (i + 1) lo
  lo + (h - (i : ℚ)) * (hi - lo)

/-- The quantile edges `pd.qcut` computes for the view's `Price` column:
the 4-quantiles of the prices observed in the current view.  On an empty
view every quantile is `NaN` (`none`). -/
def qcut_edges (view : Dataset) : List (Option ℚ) :=
  let prices := view.map (·.Price)
  if prices = [] then qcutProbs.map fun _ => none
  else qcutProbs.map fun p => some (quantileAt (prices.insertionSort (· ≤ ·)) p)

/-- Extract the five numeric edges; `none` when any edge is `NaN` or the
shape is unexpected (unreachable for a non-empty view). -/
def numericEdges : List (Option ℚ) → Option (ℚ × ℚ × ℚ × ℚ × ℚ)
  | [some a, some b, some c, some d, some e] => some (a, b, c, d, e)
  | _ => none

/-- `pd.cut` bin membership over edges `e0 < e1 < e2 < e3 < e4`: bins are
right-closed `(eᵢ₋₁, eᵢ]`, and the minimum (`x = e0`) is put into the first
bin (`include_lowest`).  Values outside `[e0, e4]` get no bin (`NaN`). -/
def binIndex (e0 e1 e2 e3 e4 x : ℚ) : Option ℕ :=
  if x = e0 ∨ (e0 < x ∧ x ≤ e1) then some 0
  else if e1 < x ∧ x ≤ e2 then some 1
  else if e2 < x ∧ x ≤ e3 then some 2
  else if e3 < x ∧ x ≤ e4 then some 3
  else none

/-- `np.around` at zero decimal places: round to the nearest integer, ties
to the even integer. -/
def roundHalfEven (q : ℚ) : ℤ :=
  let f := ⌊q⌋
  let r := q - (f : ℚ)
  if r < 1/2 then f
  else if 1/2 < r then f + 1
  else if f % 2 = 0 then f else f + 1

/-- `np.around(x, digits)` for a non-negative digit count: round half to
even at `digits` decimal places. -/
def roundTo (q : ℚ) (digits : ℕ) : ℚ :=
  (roundHalfEven (q * 10 ^ digits) : ℚ) / 10 ^ digits

/-- `int(np.floor(np.log10(q)))` for a positive rational, exact: the unique
`k` with `10^k ≤ q < 10^(k+1)`, computed as minus the least `n` with
`1 ≤ q * 10^n`.  (The label formatter only applies it to fractional parts
`0 < q < 1`, where this is the correct floor logarithm.) -/
def log10floorLtOne (q : ℚ) : ℤ :=
  if h : 0 < q then
    -(Nat.find (p := fun n => 1 ≤ q * 10 ^ n) (by
        obtain ⟨n, hn⟩ := exists_nat_ge (1 / q)
        have h10 : (n : ℚ) ≤ 10 ^ n := by
          exact_mod_cast (Nat.lt_pow_self (by norm_num) n).le
        refine ⟨n, ?_⟩
        have h1 : 1 / q ≤ 10 ^ n := le_trans hn h10
        calc (1:ℚ) = q * (1 / q) := by field_simp
          _ ≤ q * 10 ^ n := by
              exact mul_le_mul_of_nonneg_left h1 (le_of_lt h)) : ℤ)
  else 0

/-- pandas `_round_frac(x, precision)`: `x` itself when `x = 0`; otherwise,
when the integer part of `x` is zero (`|x| < 1`), round at
`-⌊log10 |frac|⌋ - 1 + precision` decimal places (`precision` significant
digits), and otherwise at `precision` decimal places. -/
def roundFrac (x : ℚ) (precision : ℕ) : ℚ :=
  if x = 0 then x
  else if |x| < 1 then
    roundTo x ((-(log10floorLtOne |x|)).toNat - 1 + precision)
  else roundTo x precision

/-- The edges rounded for display at a candidate precision. -/
def roundedEdges (edges : List ℚ) (precision : ℕ) : List ℚ :=
  edges.map fun b => roundFrac b precision

/-- pandas `_infer_precision(base_precision, bins)`: the first precision in
`range(base_precision, 20)` at which the rounded breaks are pairwise
distinct, falling back to `base_precision` when none is. -/
def inferPrecision (basePrecision : ℕ) (edges : List ℚ) : ℕ :=
  ((List.range' basePrecision (20 - basePrecision)).find? fun p =>
      decide ((roundedEdges edges p).dedup.length = edges.length)).getD
    basePrecision

/-- The interval labels `pd.qcut` attaches to the four bins
(pandas `_format_labels` with `include_lowest=True`): every break is first
rounded by `_round_frac` at the precision inferred from the default 3, and
the first bin's left endpoint is then lowered by `10^(-precision)` so the
printed interval excludes no data.  Bin membership (`binIndex`) uses the
unrounded edges, as pandas' `searchsorted` does. -/
def binIntervals (e0 e1 e2 e3 e4 : ℚ) : List (ℚ × ℚ) :=
  let p := inferPrecision 3 [e0, e1, e2, e3, e4]
  [(roundFrac e0 p - 1 / 10 ^ p, roundFrac e1 p),
   (roundFrac e1 p, roundFrac e2 p),
   (roundFrac e2 p, roundFrac e3 p),
   (roundFrac e3 p, roundFrac e4 p)]

/-- Lines 184-185:
`price_bins = pd.qcut(filtered_df['Price'], q=4)` followed by
`filtered_df.groupby(price_bins)['Sales'].mean().reset_index()`.
`pd.qcut` raises `ValueError` when the computed edges are not pairwise
distinct (`len(unique(bins)) < len(bins)`), which happens for every view with
fewer than two distinct prices — in particular the empty view, whose five
edges are all `NaN`.  Otherwise the grouped mean has one row per bin in
ascending bin order (`observed=False`: empty bins appear with mean `NaN`). -/
def price_elasticity (view : Dataset) :
    Except String (List ((ℚ × ℚ) × Option ℚ)) :=
  let edges := qcut_edges view
  if edges.dedup.length < edges.length then .error "Bin edges must be unique"
  else
    match numericEdges edges with
    | none => .error "Bin edges must be unique"
    | some (e0, e1, e2, e3, e4) =>
        .ok (([0, 1, 2, 3] : List ℕ).map fun b =>
          ((binIntervals e0 e1 e2 e3 e4).getD b (0, 0),
           meanSalesOpt (view.filter fun r =>
             decide (binIndex e0 e1 e2 e3 e4 r.Price = some b))))

/-- Line 186: `price_elasticity['Price'].apply(lambda x: (x.left + x.right)/2)`
— the midpoint of each bin's interval label, paired with the bin's mean. -/
def price_midpoints (view : Dataset) : Except String (List (ℚ × Option ℚ)) :=
  (price_elasticity view).map fun l =>
    l.map fun b => ((b.1.1 + b.1.2) / 2, b.2)

/-! ### Correlation matrix (lines 227-228) -/

/-- One entry of `DataFrame.corr()`: either `NaN` (empty column or zero
variance) or the exact value `sxy / √(sxx · syy)`, represented by the
rational triple `(sxy, sxx, syy)` of centered cross- and self-products,
which determines the real value exactly without leaving `ℚ`. -/
inductive CorrEntry where
  | nan
  | corr (sxy sxx syy : ℚ)
  deriving DecidableEq, Repr

/-- Subtract the mean from every element of a column. -/
def centered (xs : List ℚ) : List ℚ :=
  xs.map (· - listMean xs)

/-- Pearson correlation of two equal-length columns, pandas semantics: `NaN`
for an empty view or when either column has zero variance (this covers the
single-row view and constant columns). -/
def pearsonEntry (xs ys : List ℚ) : CorrEntry :=
  if xs.isEmpty then .nan
  else
    let sxx := ((centered xs).map (fun v => v * v)).sum
    let syy := ((centered ys).map (fun v => v * v)).sum
    let sxy := (List.zipWith (· * ·) (centered xs) (centered ys)).sum
    if sxx = 0 ∨ syy = 0 then .nan else .corr sxy sxx syy

/-- The numeric columns picked by
`filtered_df.select_dtypes(include=[np.number])` after normalization: the
seven numeric columns of the schema (the boolean `Urban`/`US` columns are not
`np.number`, and `ShelveLoc` is categorical). -/
def numericColumns : List (Record → ℚ) :=
  [Record.Sales, Record.Price, Record.Advertising, Record.Income,
   Record.Population, Record.Age, Record.Education]

/-- Lines 227-228: `corr_matrix = filtered_df[numeric_cols].corr()` — the
square Pearson matrix over the numeric columns; never raises, and degenerate
views (empty, single-row, constant columns) give `NaN` entries. -/
def corr_matrix (view : Dataset) : List (List CorrEntry) :=
  numericColumns.map fun c =>
    numericColumns.map fun c2 =>
      pearsonEntry (view.map c) (view.map c2)

instance {ε α : Type} [DecidableEq ε] [DecidableEq α] : DecidableEq (Except ε α)
  | .error a, .error b =>
      if h : a = b then isTrue (congrArg Except.error h)
      else isFalse fun he => h (Except.error.inj he)
  | .error _, .ok _ => isFalse fun he => Except.noConfusion he
  | .ok _, .error _ => isFalse fun he => Except.noConfusion he
  | .ok a, .ok b =>
      if h : a = b then isTrue (congrArg Except.ok h)
      else isFalse fun he => h (Except.ok.inj he)

/-! ### Concrete data used by the scenario and the degenerate cases -/

/-- A record with the columns the scenario fixes; the remaining numeric
columns are zero and the boolean columns are already normalized. -/
def mkRec (sales price : ℚ) (loc : String) : Record :=
  { Sales := sales, Price := price, Advertising := 0, Income := 0,
    Population := 0, Age := 0, Education := 0, ShelveLoc := loc,
    Urban := .bool true, US := .bool false }

/-- The spec's 5-record scenario dataset: `Sales = [5,9,7,12,3]`,
`Price = [100,120,90,150,80]`,
`ShelveLoc = ["Good","Bad","Good","Medium","Bad"]`. -/
def d9 : Dataset :=
  [mkRec 5 100 "Good", mkRec 9 120 "Bad", mkRec 7 90 "Good",
   mkRec 12 150 "Medium", mkRec 3 80 "Bad"]

/-- The scenario FilterSpec: `salesRange = [5,12]`, `priceRange = [80,150]`,
`shelveLocs = {"Good","Medium"}`, both tri-state widgets `'All'`. -/
def spec9 : FilterSpec :=
  { min_sales := 5, max_sales := 12, min_price := 80, max_price := 150,
    shelve_locs := ["Good", "Medium"], urban_filter := .all, us_filter := .all }

/-- The scenario spec with an empty `shelveLocs` multiselect. -/
def specVacuous : FilterSpec :=
  { spec9 with shelve_locs := [] }

/-- A raw (pre-normalization) record as loaded from the CSV: `Urban`/`US`
still hold the text values. -/
def rawRec : Record :=
  { mkRec 1 10 "Good" with Urban := .str "Yes", US := .str "No" }

/-- A one-record raw dataset. -/
def d0 : Dataset :=
  [rawRec]

/-- A two-record view with distinct prices 0 and 1: its 4-quantile price
edges are `[0, 1/4, 1/2, 3/4, 1]`, pairwise distinct. -/
def view2 : Dataset :=
  [mkRec 1 0 "Good", mkRec 2 1 "Bad"]

/-- The filtered view the scenario expects: the records with Sales 5 (Good),
7 (Good) and 12 (Medium), in the dataset's original order. -/
def V9 : Dataset :=
  [mkRec 5 100 "Good", mkRec 7 90 "Good", mkRec 12 150 "Medium"]

/-- `t` widens `s`: both ranges at least as wide, at least the same shelf
labels, identical tri-state constraints.  Widening a single range or adding a
single label (all other parameters equal) is an instance. -/
def SpecWider (s t : FilterSpec) : Prop :=
  t.min_sales ≤ s.min_sales ∧ s.max_sales ≤ t.max_sales ∧
  t.min_price ≤ s.min_price ∧ s.max_price ≤ t.max_price ∧
  s.shelve_locs ⊆ t.shelve_locs ∧
  s.urban_filter = t.urban_filter ∧ s.us_filter = t.us_filter

/-! ### The staged filter as a single pass -/

/-- The staged filter of lines 81-91 equals one pass with the conjunction of
the three masks. -/
theorem filtered_df_eq_filter (d : Dataset) (s : FilterSpec) :
    filtered_df d s =
      d.filter (fun r => baseMask s r && urbanMask s r && usMask s r) := by
  unfold filtered_df urbanMask usMask
  rcases hu : decide (s.urban_filter = TriState.all) with _ | _ <;>
    rcases hus : decide (s.us_filter = TriState.all) with _ | _ <;>
      simp_all [List.filter_filter, Bool.and_comm, Bool.and_left_comm]

/-! ### Helper lemmas about the filter masks -/

theorem cellEqBool_iff (v : CellVal) (b : Bool) :
    cellEqBool v b = true ↔ v = CellVal.bool b := by
  cases v <;> simp [cellEqBool]

theorem baseMask_iff (s : FilterSpec) (r : Record) :
    baseMask s r = true ↔
      (s.min_sales ≤ r.Sales ∧ r.Sales ≤ s.max_sales) ∧
      (s.min_price ≤ r.Price ∧ r.Price ≤ s.max_price) ∧
      r.ShelveLoc ∈ s.shelve_locs := by
  simp [baseMask, and_assoc]

theorem urbanMask_iff (s : FilterSpec) (r : Record) :
    urbanMask s r = true ↔
      (s.urban_filter ≠ TriState.all →
        r.Urban = CellVal.bool (s.urban_filter == TriState.yes)) := by
  unfold urbanMask
  split
  case isTrue h => simp [h]
  case isFalse h => simp [cellEqBool_iff, h]

theorem usMask_iff (s : FilterSpec) (r : Record) :
    usMask s r = true ↔
      (s.us_filter ≠ TriState.all →
        r.US = CellVal.bool (s.us_filter == TriState.yes)) := by
  unfold usMask
  split
  case isTrue h => simp [h]
  case isFalse h => simp [cellEqBool_iff, h]

theorem mask_le_of_wider {s t : FilterSpec} (h : SpecWider s t) (r : Record) :
    (baseMask s r && urbanMask s r && usMask s r) ≤
      (baseMask t r && urbanMask t r && usMask t r) := by
  obtain ⟨h1, h2, h3, h4, h5, h6, h7⟩ := h
  have hu : urbanMask s r = urbanMask t r := by simp [urbanMask, h6]
  have hus : usMask s r = usMask t r := by simp [usMask, h7]
  rw [hu, hus]
  have hb : baseMask s r = true → baseMask t r = true := by
    rw [baseMask_iff, baseMask_iff]
    rintro ⟨⟨a1, a2⟩, ⟨b1, b2⟩, c⟩
    exact ⟨⟨le_trans h1 a1, le_trans a2 h2⟩,
           ⟨le_trans h3 b1, le_trans b2 h4⟩, h5 c⟩
  cases hbs : baseMask s r
  · simp
  · rw [hb hbs]

/-! ### C2, C5, C6, C8 -/

/-- C2 — Filter membership: a record appears in `filtered_df d s` iff it is a
record of `d` within both ranges, with an allowed `ShelveLoc`, and matching
each non-`'All'` tri-state constraint. -/
theorem claim_C2_filter_membership (d : Dataset) (s : FilterSpec) (r : Record) :
    r ∈ filtered_df d s ↔
      r ∈ d ∧
      (s.min_sales ≤ r.Sales ∧ r.Sales ≤ s.max_sales) ∧
      (s.min_price ≤ r.Price ∧ r.Price ≤ s.max_price) ∧
      r.ShelveLoc ∈ s.shelve_locs ∧
      (s.urban_filter ≠ TriState.all →
        r.Urban = CellVal.bool (s.urban_filter == TriState.yes)) ∧
      (s.us_filter ≠ TriState.all →
        r.US = CellVal.bool (s.us_filter == TriState.yes)) := by
  rw [filtered_df_eq_filter, List.mem_filter]
  simp only [Bool.and_eq_true, baseMask_iff, urbanMask_iff, usMask_iff,
    and_assoc]

/-- C2 witness: the scenario's first record is in the scenario view. -/
theorem claim_C2_filter_membership_witness :
    mkRec 5 100 "Good" ∈ filtered_df d9 spec9 :=
  (claim_C2_filter_membership d9 spec9 (mkRec 5 100 "Good")).2
    ⟨by decide, by decide, by decide, by decide,
     fun h => absurd rfl h, fun h => absurd rfl h⟩

/-- C5 — Filter monotonicity: the view is never longer than the dataset, and
widening the ranges or the shelf-label set (other parameters equal) never
shrinks the view. -/
theorem claim_C5_filter_monotonicity :
    (∀ (d : Dataset) (s : FilterSpec), (filtered_df d s).length ≤ d.length) ∧
    (∀ (d : Dataset) (s t : FilterSpec), SpecWider s t →
      (filtered_df d s).length ≤ (filtered_df d t).length) := by
  constructor
  · intro d s
    rw [filtered_df_eq_filter]
    exact List.length_filter_le _ _
  · intro d s t h
    rw [filtered_df_eq_filter d s, filtered_df_eq_filter d t]
    exact (List.monotone_filter_right d fun r => mask_le_of_wider h r).length_le

/-- C5 witness: widening the scenario's sales range (and adding a label)
does not shrink the scenario view. -/
theorem claim_C5_filter_monotonicity_witness :
    SpecWider spec9
      { spec9 with min_sales := 0, shelve_locs := ["Good", "Medium", "Bad"] } ∧
    (filtered_df d9 spec9).length ≤
      (filtered_df d9
        { spec9 with min_sales := 0,
                     shelve_locs := ["Good", "Medium", "Bad"] }).length :=
  ⟨by constructor <;> simp [spec9, List.subset_def],
   claim_C5_filter_monotonicity.2 d9 spec9 _
     (by constructor <;> simp [spec9, List.subset_def])⟩

/-- C6 — Order preservation: every filtered view is a subsequence of the
dataset in its original order. -/
theorem claim_C6_order_preservation (d : Dataset) (s : FilterSpec) :
    List.Sublist (filtered_df d s) d := by
  rw [filtered_df_eq_filter]
  exact List.filter_sublist d

/-- C8 — Vacuous filter: an empty `shelveLocs` multiselect yields the empty
view whatever the other parameters are, as a normal value. -/
theorem claim_C8_vacuous_filter (d : Dataset) (a b c e : ℚ) (u v : TriState) :
    filtered_df d
      { min_sales := a, max_sales := b, min_price := c, max_price := e,
        shelve_locs := [], urban_filter := u, us_filter := v } = [] := by
  rw [filtered_df_eq_filter]
  refine List.filter_eq_nil_iff.2 ?_
  intro r _
  simp [baseMask]

/-! ### Normalization lemmas (C3, C4) -/

/-- The Yes/No dictionary map never produces a string cell. -/
theorem mapYesNo_ne_str (v : CellVal) (s : String) :
    mapYesNo v ≠ CellVal.str s := by
  unfold mapYesNo
  split <;> simp

/-- A second application of the Yes/No dictionary map always yields `NaN`:
after one application the cell is a boolean or `NaN`, neither of which is a
key of the dictionary. -/
theorem mapYesNo_mapYesNo (v : CellVal) : mapYesNo (mapYesNo v) = CellVal.na := by
  cases h : mapYesNo v with
  | str s => exact absurd h (mapYesNo_ne_str v s)
  | bool b => rfl
  | na => rfl

/-- The three column assignments of lines 39-41 amount to one row-wise map
that converts the `Urban` and `US` cells. -/
theorem preprocess_map (d : Dataset) :
    preprocess d =
      d.map fun r => { r with Urban := mapYesNo r.Urban, US := mapYesNo r.US } := by
  simp only [preprocess, astypeCategory, mapUrban, mapUS, List.map_map]
  rfl

theorem map_ne_self_of_mem {f : Record → Record} {l : Dataset} {r : Record}
    (hr : r ∈ l) (hrf : f r ≠ r) : l.map f ≠ l := by
  induction l with
  | nil => cases hr
  | cons a t ih =>
      intro h
      rw [List.map_cons] at h
      injection h with h1 h2
      rcases List.mem_cons.1 hr with rfl | hm
      · exact hrf h1
      · exact absurd h2 (ih hm)

/-! ### C3 — normalization is not idempotent on the boolean fields -/

/-- C3 counterexample: on a one-record dataset whose `Urban` cell is the text
`"Yes"`, normalizing twice does not agree with normalizing once on the
`Urban` field (the second `.map` sends the boolean to `NaN`). -/
theorem claim_C3_counterexample :
    (preprocess (preprocess d0)).map (·.Urban) ≠
      (preprocess d0).map (·.Urban) := by
  decide

/-- C3 amended: normalization is idempotent on the categorical `ShelveLoc`
field, but a second run of the Yes/No dictionary map sends every `Urban` and
`US` cell (boolean or otherwise) to `NaN`, so it is a semantic no-op only on
`ShelveLoc`. -/
theorem claim_C3_normalization_amended (d : Dataset) :
    (preprocess (preprocess d)).map (·.ShelveLoc) =
      (preprocess d).map (·.ShelveLoc) ∧
    (preprocess (preprocess d)).map (·.Urban) =
      List.replicate d.length CellVal.na ∧
    (preprocess (preprocess d)).map (·.US) =
      List.replicate d.length CellVal.na := by
  refine ⟨?_, ?_, ?_⟩ <;>
    · rw [preprocess_map, preprocess_map]
      simp only [List.map_map, Function.comp_def, mapYesNo_mapYesNo,
        List.map_const']

/-! ### C4 — the preprocessing mutates the table in place -/

/-- C4 counterexample: after lines 39-41 run on a table holding the text
value `"Yes"`, the table bound to `df` is no longer equal to the input
table — the caller's data has changed. -/
theorem claim_C4_counterexample :
    (runPreprocessing { df := d0 }).df ≠ d0 := by
  decide

/-- C4 amended: the preprocessing works by in-place column assignment — the
post-state of `df` is exactly `preprocess` of its pre-state, and whenever
some record holds a `"Yes"` or `"No"` text cell in `Urban` or `US` the
pre-state table is not preserved (input and output are the same, updated,
object rather than independent tables). -/
theorem claim_C4_normalizer_mutates_amended (st : PyState) (r : Record)
    (hr : r ∈ st.df)
    (hu : r.Urban = CellVal.str "Yes" ∨ r.Urban = CellVal.str "No" ∨
          r.US = CellVal.str "Yes" ∨ r.US = CellVal.str "No") :
    (runPreprocessing st).df = preprocess st.df ∧
    (runPreprocessing st).df ≠ st.df := by
  refine ⟨rfl, ?_⟩
  show preprocess st.df ≠ st.df
  rw [preprocess_map]
  apply map_ne_self_of_mem hr
  intro hcontra
  have hU : mapYesNo r.Urban = r.Urban := congrArg Record.Urban hcontra
  have hS : mapYesNo r.US = r.US := congrArg Record.US hcontra
  rcases hu with h | h | h | h
  · rw [h] at hU
    exact mapYesNo_ne_str _ _ hU
  · rw [h] at hU
    exact mapYesNo_ne_str _ _ hU
  · rw [h] at hS
    exact mapYesNo_ne_str _ _ hS
  · rw [h] at hS
    exact mapYesNo_ne_str _ _ hS

/-- C4 witness: the amended statement at the concrete one-record raw
dataset. -/
theorem claim_C4_normalizer_mutates_witness :
    (runPreprocessing { df := d0 }).df = preprocess d0 ∧
    (runPreprocessing { df := d0 }).df ≠ d0 :=
  claim_C4_normalizer_mutates_amended { df := d0 } rawRec (by decide) (by decide)

/-! ### C9 — the concrete scenario -/

/-- C9 — Scenario: the scenario spec keeps exactly the records with Sales
5 (Good), 7 (Good), 12 (Medium), in that order, and the grouped mean of
`Sales` over `ShelveLoc` on that view is Good ↦ 6, Medium ↦ 12. -/
theorem claim_C9_scenario :
    filtered_df d9 spec9 = V9 ∧
    shelveloc_sales (filtered_df d9 spec9) =
      [("Good", 6), ("Medium", 12)] := by
  have hv : filtered_df d9 spec9 = V9 := by decide
  refine ⟨hv, ?_⟩
  have hkeys : sortLe strLe ((V9.map (·.ShelveLoc)).dedup) =
      ["Good", "Medium"] := by decide
  have hf1 : V9.filter (fun r => decide (r.ShelveLoc = "Good")) =
      [mkRec 5 100 "Good", mkRec 7 90 "Good"] := by decide
  have hf2 : V9.filter (fun r => decide (r.ShelveLoc = "Medium")) =
      [mkRec 12 150 "Medium"] := by decide
  rw [shelveloc_sales, hv]
  simp only [meanByGroup, hkeys, List.map_cons, List.map_nil, hf1, hf2]
  norm_num [listMean, mkRec]

/-- On a view whose prices are all equal (here: one record), all five
quantile edges coincide, so `pd.qcut` raises. -/
theorem price_elasticity_const_price :
    price_elasticity [mkRec 5 100 "Good"] =
      .error "Bin edges must be unique" := by
  have hedges : qcut_edges [mkRec 5 100 "Good"] =
      [some 100, some 100, some 100, some 100, some 100] := by
    norm_num [qcut_edges, qcutProbs, quantileAt, mkRec, List.insertionSort,
      List.orderedInsert, List.getD]
  simp only [price_elasticity, hedges]
  decide

/-! ### C1 — the pipeline is not total: `pd.qcut` raises -/

/-- C1 — On the scenario dataset, emptying the `shelveLocs` multiselect
produces the empty view, and the price-elasticity aggregation then raises
`ValueError: Bin edges must be unique` instead of returning an empty
aggregate; a one-record view (a single distinct Price) raises the same
error.  The grouped means and the correlation matrix, by contrast, do return
empty / all-NaN aggregates on the empty view. -/
theorem claim_C1_qcut_raises :
    filtered_df d9 specVacuous = [] ∧
    price_elasticity (filtered_df d9 specVacuous) =
      .error "Bin edges must be unique" ∧
    price_elasticity [mkRec 5 100 "Good"] =
      .error "Bin edges must be unique" ∧
    urban_sales ([] : Dataset) = [] ∧
    shelveloc_sales ([] : Dataset) = [] ∧
    corr_matrix ([] : Dataset) =
      List.replicate 7 (List.replicate 7 CorrEntry.nan) := by
  exact ⟨by decide, by decide, price_elasticity_const_price, by decide,
    by decide, by decide⟩

/-! ### C10 — determinism of the pipeline -/

/-- C10 — Determinism: the filter is a function of the dataset and the
FilterSpec alone, and every aggregate is a function of the filtered view
alone; two runs over equal inputs produce identical views and identical
aggregate tables (the transforms carry no hidden state). -/
theorem claim_C10_determinism (d d2 : Dataset) (s s2 : FilterSpec) :
    (d = d2 → s = s2 → filtered_df d s = filtered_df d2 s2) ∧
    (filtered_df d s = filtered_df d2 s2 →
      urban_sales (filtered_df d s) = urban_sales (filtered_df d2 s2) ∧
      us_sales (filtered_df d s) = us_sales (filtered_df d2 s2) ∧
      shelveloc_sales (filtered_df d s) = shelveloc_sales (filtered_df d2 s2) ∧
      price_elasticity (filtered_df d s) = price_elasticity (filtered_df d2 s2) ∧
      price_midpoints (filtered_df d s) = price_midpoints (filtered_df d2 s2) ∧
      corr_matrix (filtered_df d s) = corr_matrix (filtered_df d2 s2)) := by
  constructor
  · rintro rfl rfl
    rfl
  · intro h
    rw [h]
    exact ⟨rfl, rfl, rfl, rfl, rfl, rfl⟩

/-- C10 witness: the second part of the determinism theorem instantiated at
the scenario inputs, with the equal-views hypothesis discharged by `rfl`. -/
theorem claim_C10_determinism_witness :
    urban_sales (filtered_df d9 spec9) = urban_sales (filtered_df d9 spec9) ∧
    us_sales (filtered_df d9 spec9) = us_sales (filtered_df d9 spec9) ∧
    shelveloc_sales (filtered_df d9 spec9) =
      shelveloc_sales (filtered_df d9 spec9) ∧
    price_elasticity (filtered_df d9 spec9) =
      price_elasticity (filtered_df d9 spec9) ∧
    price_midpoints (filtered_df d9 spec9) =
      price_midpoints (filtered_df d9 spec9) ∧
    corr_matrix (filtered_df d9 spec9) = corr_matrix (filtered_df d9 spec9) :=
  (claim_C10_determinism d9 d9 spec9 spec9).2 rfl

/-! ### Monotonicity of linear-interpolation quantiles (towards C7) -/

theorem getD_le_getD_of_le {xs : List ℚ} (hs : xs.Sorted (· ≤ ·))
    {a b : ℕ} (hab : a ≤ b) (hb : b < xs.length) (d1 d2 : ℚ) :
    xs.getD a d1 ≤ xs.getD b d2 := by
  have ha : a < xs.length := lt_of_le_of_lt hab hb
  rw [List.getD_eq_getElem xs d1 ha, List.getD_eq_getElem xs d2 hb]
  exact hs.rel_get_of_le (Fin.mk_le_mk.2 hab)

theorem getD_le_getD_succ {xs : List ℚ} (hs : xs.Sorted (· ≤ ·)) (i : ℕ) :
    xs.getD i 0 ≤ xs.getD (i + 1) (xs.getD i 0) := by
  by_cases h : i + 1 < xs.length
  · exact getD_le_getD_of_le hs (Nat.le_succ i) h 0 _
  · rw [List.getD_eq_default xs _ (Nat.le_of_not_lt h)]

theorem quantileAt_le_quantileAt {xs : List ℚ} (hs : xs.Sorted (· ≤ ·))
    (hne : xs ≠ []) {p q : ℚ} (h0 : 0 ≤ p) (hpq : p ≤ q) (hq1 : q ≤ 1) :
    quantileAt xs p ≤ quantileAt xs q := by
  have hn : 1 ≤ xs.length := List.length_pos.2 hne
  set n := xs.length with hn_def
  set m : ℚ := (n : ℚ) - 1 with hm_def
  have hm0 : (0:ℚ) ≤ m := by
    have : (1:ℚ) ≤ (n:ℚ) := by exact_mod_cast hn
    linarith
  have h1 : (0:ℚ) ≤ p * m := mul_nonneg h0 hm0
  have h2 : p * m ≤ q * m := mul_le_mul_of_nonneg_right hpq hm0
  have h3 : q * m ≤ m := mul_le_of_le_one_left hm0 hq1
  have hi0 : (0:ℤ) ≤ ⌊p * m⌋ := Int.floor_nonneg.2 h1
  have hj0 : (0:ℤ) ≤ ⌊q * m⌋ := Int.floor_nonneg.2 (le_trans h1 h2)
  set i := ⌊p * m⌋.toNat with hi_def
  set j := ⌊q * m⌋.toNat with hj_def
  have hicast : ((i : ℕ) : ℚ) = ((⌊p * m⌋ : ℤ) : ℚ) := by
    have h : ((i : ℤ) : ℚ) = ((⌊p * m⌋ : ℤ) : ℚ) := by
      rw [hi_def, Int.toNat_of_nonneg hi0]
    exact_mod_cast h
  have hjcast : ((j : ℕ) : ℚ) = ((⌊q * m⌋ : ℤ) : ℚ) := by
    have h : ((j : ℤ) : ℚ) = ((⌊q * m⌋ : ℤ) : ℚ) := by
      rw [hj_def, Int.toNat_of_nonneg hj0]
    exact_mod_cast h
  have hij : i ≤ j := by
    rw [hi_def, hj_def]
    exact Int.toNat_le_toNat (Int.floor_le_floor h2)
  have hjn : j < n := by
    have hfl : ⌊q * m⌋ ≤ (n : ℤ) - 1 := by
      have : ⌊m⌋ = (n : ℤ) - 1 := by
        rw [hm_def]
        rw [show ((n:ℚ) - 1) = (((n : ℤ) - 1 : ℤ) : ℚ) by push_cast; ring]
        exact Int.floor_intCast _
      calc ⌊q * m⌋ ≤ ⌊m⌋ := Int.floor_le_floor h3
        _ = (n : ℤ) - 1 := this
    rw [hj_def]
    omega
  have hpi0 : (0:ℚ) ≤ p * m - (i : ℚ) := by
    have := Int.floor_le (p * m)
    rw [hicast]
    linarith
  have hpi1 : p * m - (i : ℚ) ≤ 1 := by
    have := Int.lt_floor_add_one (p * m)
    rw [hicast]
    linarith
  have hqj0 : (0:ℚ) ≤ q * m - (j : ℚ) := by
    have := Int.floor_le (q * m)
    rw [hjcast]
    linarith
  show xs.getD i 0 + (p * m - (i:ℚ)) * (xs.getD (i+1) (xs.getD i 0) - xs.getD i 0) ≤
       xs.getD j 0 + (q * m - (j:ℚ)) * (xs.getD (j+1) (xs.getD j 0) - xs.getD j 0)
  have hlo_hi_i := getD_le_getD_succ hs i
  have hlo_hi_j := getD_le_getD_succ hs j
  rcases Nat.lt_or_ge i j with hlt | hge
  · -- i < j : q(p) ≤ hi_i ≤ lo_j ≤ q(q)
    have hij1 : i + 1 ≤ j := Nat.succ_le_of_lt hlt
    have hstep : xs.getD (i+1) (xs.getD i 0) ≤ xs.getD j 0 :=
      getD_le_getD_of_le hs hij1 hjn _ 0
    nlinarith [mul_nonneg (sub_nonneg.2 hlo_hi_i) (sub_nonneg.2 hpi1),
      mul_nonneg hqj0 (sub_nonneg.2 hlo_hi_j)]
  · -- i = j
    have heq : i = j := Nat.le_antisymm hij hge
    rw [heq]
    nlinarith [mul_nonneg (by linarith : (0:ℚ) ≤ q * m - p * m)
      (sub_nonneg.2 hlo_hi_j)]

/-! ### The label-rounding pipeline on edges it fixes (towards C7) -/

theorem roundHalfEven_intCast (n : ℤ) : roundHalfEven (n : ℚ) = n := by
  norm_num [roundHalfEven, Int.floor_intCast]

/-- Rounding at `d` decimal places is the identity on a rational that is an
integer multiple of `10^(-d)`. -/
theorem roundTo_eq_self (q : ℚ) (d : ℕ) (n : ℤ) (h : q * 10 ^ d = (n : ℚ)) :
    roundTo q d = q := by
  rw [roundTo, h, roundHalfEven_intCast, ← h]
  field_simp

/-- The exact floor logarithm of a rational in `[1/10, 1)` is `-1`. -/
theorem log10floorLtOne_eq_neg_one {q : ℚ} (h1 : 1/10 ≤ q) (h2 : q < 1) :
    log10floorLtOne q = -1 := by
  have h0 : 0 < q := lt_of_lt_of_le (by norm_num) h1
  rw [log10floorLtOne, dif_pos h0]
  have hfind : ∀ H : ∃ n : ℕ, 1 ≤ q * 10 ^ n, Nat.find H = 1 := by
    intro H
    rw [Nat.find_eq_iff]
    constructor
    · rw [pow_one]
      linarith
    · intro n hn
      obtain rfl : n = 0 := by omega
      rw [pow_zero, mul_one]
      exact not_le.2 h2
  rw [hfind]
  rfl

/-- `_round_frac` at the default precision 3 fixes a rational in `[1/10, 1)`
that is an integer multiple of `1/1000`. -/
theorem roundFrac_of_tenth {q : ℚ} (h1 : 1/10 ≤ q) (h2 : q < 1)
    (n : ℤ) (h : q * 10 ^ 3 = (n : ℚ)) :
    roundFrac q 3 = q := by
  have h0 : 0 < q := lt_of_lt_of_le (by norm_num) h1
  have habs : |q| < 1 := by
    rw [abs_of_pos h0]
    exact h2
  rw [roundFrac, if_neg h0.ne', if_pos habs, abs_of_pos h0,
    log10floorLtOne_eq_neg_one h1 h2]
  exact roundTo_eq_self q 3 n h

theorem roundFrac_zero : roundFrac 0 3 = 0 := by
  rw [roundFrac, if_pos rfl]

theorem roundFrac_one : roundFrac 1 3 = 1 := by
  rw [roundFrac, if_neg (by norm_num), if_neg (by norm_num)]
  exact roundTo_eq_self 1 3 1000 (by norm_num)

theorem roundFrac_quarter : roundFrac (1/4) 3 = 1/4 :=
  roundFrac_of_tenth (by norm_num) (by norm_num) 250 (by norm_num)

theorem roundFrac_half : roundFrac (1/2) 3 = 1/2 :=
  roundFrac_of_tenth (by norm_num) (by norm_num) 500 (by norm_num)

theorem roundFrac_threequarter : roundFrac (3/4) 3 = 3/4 :=
  roundFrac_of_tenth (by norm_num) (by norm_num) 750 (by norm_num)

/-- When rounding at the base precision 3 already fixes all five pairwise
distinct edges, `_infer_precision` returns 3 at its first iteration. -/
theorem inferPrecision_of_fixed {e0 e1 e2 e3 e4 : ℚ}
    (hnodup : ([e0, e1, e2, e3, e4] : List ℚ).Nodup)
    (hf0 : roundFrac e0 3 = e0) (hf1 : roundFrac e1 3 = e1)
    (hf2 : roundFrac e2 3 = e2) (hf3 : roundFrac e3 3 = e3)
    (hf4 : roundFrac e4 3 = e4) :
    inferPrecision 3 [e0, e1, e2, e3, e4] = 3 := by
  have hre : roundedEdges [e0, e1, e2, e3, e4] 3 = [e0, e1, e2, e3, e4] := by
    simp [roundedEdges, hf0, hf1, hf2, hf3, hf4]
  rw [inferPrecision,
    show List.range' 3 (20 - 3) = 3 :: List.range' 4 16 from rfl,
    List.find?_cons_of_pos]
  · rfl
  · simp [hre, List.dedup_eq_self.2 hnodup]

/-- On five pairwise distinct edges that rounding at precision 3 fixes, the
interval labels are the edges themselves with the first lowered by
`1/1000`. -/
theorem binIntervals_of_fixed {e0 e1 e2 e3 e4 : ℚ}
    (hnodup : ([e0, e1, e2, e3, e4] : List ℚ).Nodup)
    (hf0 : roundFrac e0 3 = e0) (hf1 : roundFrac e1 3 = e1)
    (hf2 : roundFrac e2 3 = e2) (hf3 : roundFrac e3 3 = e3)
    (hf4 : roundFrac e4 3 = e4) :
    binIntervals e0 e1 e2 e3 e4 =
      [(e0 - 1/1000, e1), (e1, e2), (e2, e3), (e3, e4)] := by
  simp only [binIntervals,
    inferPrecision_of_fixed hnodup hf0 hf1 hf2 hf3 hf4,
    hf0, hf1, hf2, hf3, hf4]
  norm_num

/-! ### C7 — quantile-binned means, amended -/

/-- C7 amended: the bin edges are the 4-quantiles of the prices observed in
this very view, but the interval labels carry those edges *rounded* by
pandas' label formatting (`_round_frac` at the `_infer_precision`-inferred
precision, default 3) with the first label edge additionally lowered by
`10^(-precision)`.  Hence, for every non-empty view whose five quantile
edges are pairwise distinct (otherwise `pd.qcut` raises, see the
counterexample) and are fixed points of rounding at the default precision 3,
the table exists with one row per bin — four rows, empty bins carrying a
`NaN` mean — the midpoints are `(lowerEdge+upperEdge)/2` of the labels,
i.e. `(e0 - 1/1000 + e1)/2` for the first bin and `(eᵢ + eᵢ₊₁)/2` for the
rest, and the row sequence is strictly ascending by bin midpoint. -/
theorem claim_C7_quantile_binned_means_amended
    (view : Dataset) (hne : view ≠ [])
    (e0 e1 e2 e3 e4 : ℚ)
    (hedges : qcut_edges view = [some e0, some e1, some e2, some e3, some e4])
    (hnodup : ([e0, e1, e2, e3, e4] : List ℚ).Nodup)
    (hf0 : roundFrac e0 3 = e0) (hf1 : roundFrac e1 3 = e1)
    (hf2 : roundFrac e2 3 = e2) (hf3 : roundFrac e3 3 = e3)
    (hf4 : roundFrac e4 3 = e4) :
    ∃ L, price_elasticity view = Except.ok L ∧
      L.length = 4 ∧
      (L.map fun b => (b.1.1 + b.1.2) / 2) =
        [(e0 - 1/1000 + e1) / 2, (e1 + e2) / 2, (e2 + e3) / 2, (e3 + e4) / 2] ∧
      List.Chain' (· < ·) (L.map fun b => (b.1.1 + b.1.2) / 2) := by
  have hbin := binIntervals_of_fixed hnodup hf0 hf1 hf2 hf3 hf4
  have hpne : view.map (·.Price) ≠ [] := by
    intro h
    exact hne (List.map_eq_nil_iff.1 h)
  have hsp_sorted := List.sorted_insertionSort (· ≤ ·) (view.map (·.Price))
  have hsp_ne : (view.map (·.Price)).insertionSort (· ≤ ·) ≠ [] := by
    have hlen := (List.perm_insertionSort (· ≤ ·) (view.map (·.Price))).length_eq
    intro h
    rw [h] at hlen
    exact hpne (List.length_eq_zero.1 hlen.symm)
  -- the edges are the quantiles of the view's own prices
  have hE := hedges
  simp only [qcut_edges, qcutProbs, if_neg hpne, List.map_cons, List.map_nil,
    List.cons.injEq, Option.some.injEq, and_true] at hedges
  obtain ⟨h0, h1, h2, h3, h4⟩ := hedges
  -- the edges increase weakly by quantile monotonicity, strictly by Nodup
  have q01 := quantileAt_le_quantileAt hsp_sorted hsp_ne
    (by norm_num : (0:ℚ) ≤ 0) (by norm_num : (0:ℚ) ≤ 1/4) (by norm_num : (1:ℚ)/4 ≤ 1)
  have q12 := quantileAt_le_quantileAt hsp_sorted hsp_ne
    (by norm_num : (0:ℚ) ≤ 1/4) (by norm_num : (1:ℚ)/4 ≤ 1/2) (by norm_num : (1:ℚ)/2 ≤ 1)
  have q23 := quantileAt_le_quantileAt hsp_sorted hsp_ne
    (by norm_num : (0:ℚ) ≤ 1/2) (by norm_num : (1:ℚ)/2 ≤ 3/4) (by norm_num : (3:ℚ)/4 ≤ 1)
  have q34 := quantileAt_le_quantileAt hsp_sorted hsp_ne
    (by norm_num : (0:ℚ) ≤ 3/4) (by norm_num : (3:ℚ)/4 ≤ 1) (le_refl 1)
  rw [h0, h1] at q01
  rw [h1, h2] at q12
  rw [h2, h3] at q23
  rw [h3, h4] at q34
  have hsomenodup : (([e0, e1, e2, e3, e4] : List ℚ).map some).Nodup :=
    hnodup.map (Option.some_injective ℚ)
  simp only [List.nodup_cons, List.mem_cons, List.mem_singleton, not_or,
    List.not_mem_nil, not_false_iff, and_true, List.nodup_nil] at hnodup
  obtain ⟨⟨hne01, -, -, -⟩, ⟨hne12, -, -⟩, ⟨hne23, -⟩, hne34⟩ := hnodup
  have hlt01 : e0 < e1 := lt_of_le_of_ne q01 hne01
  have hlt12 : e1 < e2 := lt_of_le_of_ne q12 hne12
  have hlt23 : e2 < e3 := lt_of_le_of_ne q23 hne23
  have hlt34 : e3 < e4 := lt_of_le_of_ne q34 hne34
  -- the uniqueness guard passes
  have hEnodup : ([some e0, some e1, some e2, some e3, some e4] :
      List (Option ℚ)).Nodup := by simpa using hsomenodup
  simp only [price_elasticity, hE, List.dedup_eq_self.2 hEnodup,
    lt_irrefl, if_false, numericEdges]
  refine ⟨_, rfl, by simp, ?_, ?_⟩
  · simp only [List.map_cons, List.map_nil, hbin,
      List.getD_cons_zero, List.getD_cons_succ]
  · simp only [List.map_cons, List.map_nil, hbin,
      List.getD_cons_zero, List.getD_cons_succ, List.chain'_cons,
      List.chain'_singleton, and_true]
    refine ⟨by linarith, by linarith, by linarith⟩

/-- The 4-quantile price edges of the two-record view `view2`. -/
theorem qcut_edges_view2 :
    qcut_edges view2 = [some 0, some (1/4), some (1/2), some (3/4), some 1] := by
  norm_num [qcut_edges, qcutProbs, quantileAt, view2, mkRec, List.insertionSort,
    List.orderedInsert, List.getD]
  exact fun h => absurd h (by simp)

/-- The edges of `view2` are pairwise distinct. -/
theorem nodup_edges_view2 :
    (([0, 1/4, 1/2, 3/4, 1] : List ℚ)).Nodup := by
  norm_num

/-- The labels of the `view2` edges: rounding at the inferred precision 3
fixes them, and the first is lowered by `1/1000`. -/
theorem binIntervals_view2 :
    binIntervals 0 (1/4) (1/2) (3/4) 1 =
      [(0 - 1/1000, 1/4), (1/4, 1/2), (1/2, 3/4), (3/4, 1)] :=
  binIntervals_of_fixed nodup_edges_view2 roundFrac_zero roundFrac_quarter
    roundFrac_half roundFrac_threequarter roundFrac_one

/-- The price-elasticity midpoint table of `view2`, fully evaluated: the
first midpoint is `249/2000`, not `((0) + (1/4))/2 = 1/8`. -/
theorem price_midpoints_view2 :
    price_midpoints view2 =
      .ok [(249/2000, some 1), (3/8, none), (5/8, none), (7/8, some 2)] := by
  have hnodup2 : (([some 0, some (1/4), some (1/2), some (3/4), some 1] :
      List (Option ℚ))).Nodup := by
    simpa using nodup_edges_view2.map (Option.some_injective ℚ)
  simp only [price_midpoints, price_elasticity, qcut_edges_view2]
  rw [List.dedup_eq_self.2 hnodup2]
  norm_num [numericEdges, binIntervals_view2, binIndex, view2, mkRec,
    meanSalesOpt, listMean, Except.map, List.getD_cons_zero,
    List.getD_cons_succ, List.filter]

/-- C7 counterexample: the claim as stated fails twice on the code — on
`view2` the first returned midpoint `249/2000` is not the midpoint `1/8` of
the first two quantile edges `0` and `1/4` (pandas lowers the first bin's
label edge by `1/1000`), and on a non-empty single-record view the function
raises instead of returning a table. -/
theorem claim_C7_counterexample :
    price_midpoints view2 =
      .ok [(249/2000, some 1), (3/8, none), (5/8, none), (7/8, some 2)] ∧
    qcut_edges view2 = [some 0, some (1/4), some (1/2), some (3/4), some 1] ∧
    (249:ℚ)/2000 ≠ (0 + 1/4) / 2 ∧
    price_elasticity [mkRec 5 100 "Good"] =
      .error "Bin edges must be unique" :=
  ⟨price_midpoints_view2, qcut_edges_view2, by norm_num,
   price_elasticity_const_price⟩

/-- C7 witness: the amended theorem applied to the concrete view `view2`,
with every hypothesis discharged (the five edges are distinct and rounding
at precision 3 fixes each of them). -/
theorem claim_C7_quantile_binned_means_witness :
    view2 ≠ [] ∧ (([0, 1/4, 1/2, 3/4, 1] : List ℚ)).Nodup ∧
    roundFrac 0 3 = 0 ∧ roundFrac (1/4) 3 = 1/4 ∧ roundFrac (1/2) 3 = 1/2 ∧
    roundFrac (3/4) 3 = 3/4 ∧ roundFrac 1 3 = 1 ∧
    ∃ L, price_elasticity view2 = Except.ok L ∧
      L.length = 4 ∧
      (L.map fun b => (b.1.1 + b.1.2) / 2) =
        [(0 - 1/1000 + 1/4) / 2, (1/4 + 1/2) / 2, (1/2 + 3/4) / 2,
         (3/4 + 1) / 2] ∧
      List.Chain' (· < ·) (L.map fun b => (b.1.1 + b.1.2) / 2) :=
  ⟨by decide, nodup_edges_view2, roundFrac_zero, roundFrac_quarter,
   roundFrac_half, roundFrac_threequarter, roundFrac_one,
   claim_C7_quantile_binned_means_amended view2 (by decide) 0 (1/4) (1/2)
     (3/4) 1 qcut_edges_view2 nodup_edges_view2 roundFrac_zero
     roundFrac_quarter roundFrac_half roundFrac_threequarter roundFrac_one⟩

end CompanyDashboard
